import Mathlib

/-!
Shallow embedding of go-ethereum's state-transition pipeline
(`core/state_transition.go`, given as `src/unnamed/part_000`, and
`core/state_processor.go`) together with theorems settling the frozen
claims about it.

Conventions:
* Go `uint64` values are `Nat` with explicit `% 2^64` wherever the Go
  code can wrap (`u64add`, `u64sub`, `u64mul`).
* `*big.Int` quantities (balances, gas cost products) are `Int`; Go's
  `big.Int` is arbitrary precision and never wraps.
* Pointer mutation of `StateDB` / `GasPool` becomes explicit state
  threading: every operation returns the updated state.
* External collaborators that are not part of the excerpt (the EVM's
  `Create`/`Call`, signature recovery, `crypto.CreateAddress`,
  `types.CreateBloom`, the consensus engine's `Finalize`,
  `statedb.Finalise` / `IntermediateRoot`) are capability parameters,
  exactly as the spec treats them.
-/

/-- Modulus of Go's `uint64`. -/
def U64MOD : Nat := 2 ^ 64

/-- Go's `math.MaxUint64`. -/
def MaxUint64 : Nat := 2 ^ 64 - 1

/-- Go `uint64` addition (wraps modulo `2^64`). -/
def u64add (a b : Nat) : Nat := (a + b) % U64MOD

/-- Go `uint64` subtraction (wraps modulo `2^64`); callers pass values
below `2^64`. -/
def u64sub (a b : Nat) : Nat := (a + U64MOD - b) % U64MOD

/-- Go `uint64` multiplication (wraps modulo `2^64`). -/
def u64mul (a b : Nat) : Nat := (a * b) % U64MOD

/-- Gas constant `params.TxGas`: the source comment (part_000, line 82)
gives the per-call floor of 21000 gas. -/
def TxGas : Nat := 21000

/-- Gas constant `params.TxGasContractCreation`: the source comment
(part_000, line 82) gives the contract-creation floor of 53000 gas. -/
def TxGasContractCreation : Nat := 53000

/-- Gas constant `params.TxDataNonZeroGas`: the source comment
(part_000, line 102) gives 68 gas per non-zero payload byte. -/
def TxDataNonZeroGas : Nat := 68

/-- Gas constant `params.TxDataZeroGas`: the source comment
(part_000, line 102) gives 4 gas per zero payload byte. -/
def TxDataZeroGas : Nat := 4

/-- Account addresses, abstracted. -/
abbrev Addr := Nat

/-- The error taxonomy of the excerpt: `core` validity errors
(`ErrNonceTooHigh`, `ErrNonceTooLow`, `errInsufficientBalanceForGas`,
`ErrGasLimitReached`), the `vm` errors the pipeline inspects
(`vm.ErrOutOfGas`, `vm.ErrInsufficientBalance`), and an opaque family
`other` for every remaining EVM / signer error value. -/
inductive Err where
  | nonceTooHigh
  | nonceTooLow
  | insufficientBalanceForGas
  | gasLimitReached
  | outOfGas
  | insufficientBalance
  | other (code : Nat)
deriving DecidableEq, Repr

/-- The `Message` interface of part_000: sender, optional recipient
(`none` ⇒ contract creation), gas limit, gas price, value, nonce,
nonce-check flag and payload. Payload bytes are `Nat` (each below 256 in
real data; only zero-vs-nonzero matters to the pipeline). -/
structure Message where
  From : Addr
  To : Option Addr
  GasPrice : Nat
  Gas : Nat
  Value : Nat
  Nonce : Nat
  CheckNonce : Bool
  Data : List Nat

/-- The `vm.StateDB` state visible to the excerpt: balances (Go
`big.Int`, so `Int`), uint64 nonces, the refund counter read by
`GetRefund`, per-transaction log buffers keyed by tx hash, and the
transaction context set by `Prepare`. -/
structure WorldState where
  balance : Addr → Int
  nonce : Addr → Nat
  refund : Nat
  logs : Nat → List Nat
  thash : Nat
  bhash : Nat
  txIndex : Nat

/-- The `StateDB.AddBalance` operation: add `amt` to `a`'s balance. -/
def WorldState.AddBalance (ws : WorldState) (a : Addr) (amt : Int) : WorldState :=
  { ws with balance := fun x => if x = a then ws.balance x + amt else ws.balance x }

/-- The `StateDB.SubBalance` operation: subtract `amt` from `a`'s balance. -/
def WorldState.SubBalance (ws : WorldState) (a : Addr) (amt : Int) : WorldState :=
  { ws with balance := fun x => if x = a then ws.balance x - amt else ws.balance x }

/-- The `StateDB.SetNonce` operation. -/
def WorldState.SetNonce (ws : WorldState) (a : Addr) (n : Nat) : WorldState :=
  { ws with nonce := fun x => if x = a then n else ws.nonce x }

/-- The `StateDB.Prepare` operation used by `Process`: record the
current transaction context. -/
def WorldState.Prepare (ws : WorldState) (th bh : Nat) (i : Nat) : WorldState :=
  { ws with thash := th, bhash := bh, txIndex := i }

/-- Modelled from the spec: the repository's `GasPool` type
(`core/gas_pool.go`) is not part of the excerpt. Per spec §4.1 it is a
single unsigned 64-bit counter; `SubGas` fails with `GasLimitReached`
when the amount exceeds the remaining capacity, leaving it unchanged on
failure. -/
def GasPool.SubGas (gp amount : Nat) : Except Err Nat :=
  if gp < amount then .error .gasLimitReached else .ok (gp - amount)

/-- Modelled from the spec: `GasPool.AddGas` from `core/gas_pool.go` is
not part of the excerpt. Per spec §4.1 it increases capacity,
saturating at the maximum representable `uint64` value instead of
wrapping. -/
def GasPool.AddGas (gp amount : Nat) : Nat :=
  min (gp + amount) MaxUint64

/-- Outcome of one EVM `Create`/`Call` capability invocation: return
data, remaining gas, optional vm error, and the world state as mutated
by the executed code. -/
structure ExecOutcome where
  ret : List Nat
  remainingGas : Nat
  vmerr : Option Err
  state : WorldState

/-- The opaque `Executor` capability (the EVM of `core/vm`, outside the
excerpt): `create sender data gas value` and
`call sender recipient data gas value`, each also transforming the
world state. -/
structure Executor where
  create : WorldState → Addr → List Nat → Nat → Nat → ExecOutcome
  call : WorldState → Addr → Addr → List Nat → Nat → Nat → ExecOutcome

/-- The parts of `vm.EVM` the excerpt reads: the executor capability,
`Coinbase`, the homestead flag `ChainConfig().IsHomestead(BlockNumber)`,
and `Context.Origin` (set to the message sender by `NewEVMContext`,
which is outside the excerpt; spec §4.4 identifies it with the sender). -/
structure EVM where
  exec : Executor
  coinbase : Addr
  homestead : Bool
  origin : Addr

/-- The `StateTransition` struct of part_000 (lines 51-62): gas pool,
message, working gas counter, gas price, initial gas, value, payload,
world state and EVM handle. -/
structure StateTransition where
  gp : Nat
  msg : Message
  gas : Nat
  gasPrice : Nat
  initialGas : Nat
  value : Nat
  data : List Nat
  state : WorldState
  evm : EVM

/-- `IntrinsicGas` (part_000, lines 83-117): base cost by creation/fork,
then per-byte costs with an explicit overflow guard before each
addition; the guarded Go additions and multiplications are `uint64` and
modelled with wrapping. -/
def IntrinsicGas (data : List Nat) (contractCreation homestead : Bool) :
    Except Err Nat :=
  let gas := if contractCreation && homestead then TxGasContractCreation else TxGas
  if 0 < data.length then
    let nz := (data.filter (fun byt => byt ≠ 0)).length
    if (MaxUint64 - gas) / TxDataNonZeroGas < nz then
      .error .outOfGas
    else
      let gas := u64add gas (u64mul nz TxDataNonZeroGas)
      let z := data.length - nz
      if (MaxUint64 - gas) / TxDataZeroGas < z then
        .error .outOfGas
      else
        .ok (u64add gas (u64mul z TxDataZeroGas))
  else
    .ok gas

/-- `NewStateTransition` (part_000, lines 121-133); Go zero-initialises
the `gas` and `initialGas` fields. -/
def NewStateTransition (evm : EVM) (ws : WorldState) (msg : Message) (gp : Nat) :
    StateTransition :=
  { gp := gp
    evm := evm
    msg := msg
    gas := 0
    gasPrice := msg.GasPrice
    initialGas := 0
    value := msg.Value
    data := msg.Data
    state := ws }

/-- The `to` helper (part_000, lines 148-153): the zero address for
contract creation, else the recipient. -/
def StateTransition.to (st : StateTransition) : Addr :=
  match st.msg.To with
  | none => 0
  | some a => a

/-- `useGas` (part_000, lines 155-163): fail with `vm.ErrOutOfGas` when
the working counter is below `amount`, else deduct. -/
def StateTransition.useGas (st : StateTransition) (amount : Nat) :
    Except Err StateTransition :=
  if st.gas < amount then .error .outOfGas
  else .ok { st with gas := st.gas - amount }

/-- `buyGas` (part_000, lines 166-194): `mgval = Gas() * gasPrice` as a
`big.Int` product; fail on insufficient balance, then `gp.SubGas`, then
set the working counter and `initialGas` and debit the sender. On an
error no mutation is emitted, matching the Go code where the debit and
counter writes happen only after both checks. -/
def StateTransition.buyGas (st : StateTransition) : Except Err StateTransition :=
  let mgval : Int := (st.msg.Gas : Int) * (st.gasPrice : Int)
  if st.state.balance st.msg.From < mgval then
    .error .insufficientBalanceForGas
  else
    match GasPool.SubGas st.gp st.msg.Gas with
    | .error e => .error e
    | .ok gp' =>
      .ok { st with
              gp := gp'
              gas := u64add st.gas st.msg.Gas
              initialGas := st.msg.Gas
              state := st.state.SubBalance st.msg.From mgval }

/-- `preCheck` (part_000, lines 196-209): exact nonce match when
`CheckNonce()`, then `buyGas`. -/
def StateTransition.preCheck (st : StateTransition) : Except Err StateTransition :=
  if st.msg.CheckNonce then
    let nonce := st.state.nonce st.msg.From
    if nonce < st.msg.Nonce then .error .nonceTooHigh
    else if nonce > st.msg.Nonce then .error .nonceTooLow
    else st.buyGas
  else st.buyGas

/-- `gasUsed` (part_000, lines 316-319): `initialGas - gas` in `uint64`
arithmetic. -/
def StateTransition.gasUsed (st : StateTransition) : Nat :=
  u64sub st.initialGas st.gas

/-- `refundGas` (part_000, lines 287-312): refund is half the used gas,
capped at the StateDB refund counter; it is added to the working
counter, the sender is credited `gas * gasPrice`, and the (possibly
refunded) remaining gas is returned to the block gas pool. -/
def StateTransition.refundGas (st : StateTransition) : StateTransition :=
  let refund := st.gasUsed / 2
  let refund := if refund > st.state.refund then st.state.refund else refund
  let st := { st with gas := u64add st.gas refund }
  let remaining : Int := (st.gas : Int) * (st.gasPrice : Int)
  let st := { st with state := st.state.AddBalance st.msg.From remaining }
  { st with gp := GasPool.AddGas st.gp st.gas }

/-- The `if contractCreation / else` dispatch of `TransitionDb`
(part_000, lines 254-262): `evm.Create` for creation (the returned
contract address is discarded), else the nonce increment followed by
`evm.Call`; both write the remaining gas back into the working counter. -/
def StateTransition.execDispatch (st : StateTransition) :
    List Nat × StateTransition × Option Err :=
  if st.msg.To.isNone then
    let o := st.evm.exec.create st.state st.msg.From st.data st.gas st.value
    (o.ret, { st with state := o.state, gas := o.remainingGas }, o.vmerr)
  else
    let st := { st with
                  state := st.state.SetNonce st.msg.From
                    (u64add (st.state.nonce st.msg.From) 1) }
    let o := st.evm.exec.call st.state st.msg.From st.to st.data st.gas st.value
    (o.ret, { st with state := o.state, gas := o.remainingGas }, o.vmerr)

/-- Result of `TransitionDb`: Go's `(ret, usedGas, failed, err)` named
returns plus the final `StateTransition` (carrying the world state and
gas pool that Go mutates through pointers). -/
structure TDbOut where
  ret : List Nat
  usedGas : Nat
  failed : Bool
  err : Option Err
  st : StateTransition

/-- `TransitionDb` (part_000, lines 219-284): `preCheck`, intrinsic-gas
charge, dispatch to the EVM, the `vm.ErrInsufficientBalance` hard stop,
then `refundGas` and the coinbase fee credit. On every error return the
Go named results are zero-valued (`nil, 0, false, err`) and the state
mutations made so far persist. -/
def StateTransition.TransitionDb (st0 : StateTransition) : TDbOut :=
  match st0.preCheck with
  | .error e => ⟨[], 0, false, some e, st0⟩
  | .ok st1 =>
    let contractCreation := st1.msg.To.isNone
    match IntrinsicGas st1.data contractCreation st1.evm.homestead with
    | .error e => ⟨[], 0, false, some e, st1⟩
    | .ok gas =>
      match st1.useGas gas with
      | .error e => ⟨[], 0, false, some e, st1⟩
      | .ok st2 =>
        let (ret, st3, vmerr) := st2.execDispatch
        if vmerr = some Err.insufficientBalance then
          ⟨[], 0, false, some Err.insufficientBalance, st3⟩
        else
          let st4 := st3.refundGas
          let st5 := { st4 with
                         state := st4.state.AddBalance st4.evm.coinbase
                           ((st4.gasUsed : Int) * (st4.gasPrice : Int)) }
          ⟨ret, st5.gasUsed, vmerr.isSome, none, st5⟩

/-- `ApplyMessage` (part_000, lines 142-145). -/
def ApplyMessage (evm : EVM) (ws : WorldState) (msg : Message) (gp : Nat) : TDbOut :=
  (NewStateTransition evm ws msg gp).TransitionDb

/-- A transaction as seen by `state_processor.go`: its hash and nonce
(read directly via `tx.Hash()` / `tx.Nonce()`); everything else is
reached only through `AsMessage`. -/
structure Transaction where
  hash : Nat
  nonce : Nat

/-- A `types.Receipt` as built by `ApplyTransaction`: intermediate root
bytes (pre-byzantium), failed status, cumulative gas, tx hash, gas used,
optional created-contract address, logs and bloom. -/
structure Receipt where
  postState : List Nat
  failed : Bool
  cumulativeGasUsed : Nat
  txHash : Nat
  gasUsed : Nat
  contractAddress : Option Addr
  logs : List Nat
  bloom : Nat

/-- The external collaborators of `state_processor.go`, bundled:
signature recovery (`tx.AsMessage` with `MakeSigner`, fallible), the
fork flags of the chain configuration at the block's height,
`crypto.CreateAddress`, `types.CreateBloom` (abstracted to a function of
the receipt's logs), `statedb.Finalise` / `IntermediateRoot`, the
consensus engine's `Finalize`, the executor, and the DAO-fork data. -/
structure Chain where
  asMessage : Transaction → Except Err Message
  isHomestead : Bool
  isByzantium : Bool
  isEIP158 : Bool
  createAddress : Addr → Nat → Addr
  createBloom : List Nat → Nat
  finalise : WorldState → Bool → WorldState
  intermediateRoot : WorldState → Bool → List Nat
  finalize : WorldState → WorldState
  exec : Executor
  daoForkSupport : Bool
  daoForkBlock : Option Nat
  applyDAOHardFork : WorldState → WorldState

/-- Go's `(receipt, gas, err)` return of `ApplyTransaction`, together
with the world state, gas pool and `*usedGas` accumulator it mutates
through pointers (also on the error path). -/
inductive ApplyResult where
  | ok (receipt : Receipt) (gas : Nat) (ws : WorldState) (gp : Nat) (usedGas : Nat)
  | fail (e : Err) (ws : WorldState) (gp : Nat) (usedGas : Nat)

/-- `ApplyTransaction` (state_processor.go, lines 110-186): recover the
message, run `ApplyMessage`, propagate its error, otherwise finalise or
snapshot the intermediate root by fork era, bump `*usedGas`, and build
the receipt — failed status from the transition, gas used, the created
contract's address `CreateAddress(Origin, tx.Nonce())` when the message
has no recipient (`Origin` is the message sender, per `NewEVMContext`),
the drained logs and their bloom. `coinbase` is the block's fee
recipient resolved by `NewEVMContext` from the author/header. -/
def ApplyTransaction (ch : Chain) (coinbase : Addr) (gp : Nat) (ws : WorldState)
    (tx : Transaction) (usedGas : Nat) : ApplyResult :=
  match ch.asMessage tx with
  | .error e => .fail e ws gp usedGas
  | .ok msg =>
    let evm : EVM :=
      { exec := ch.exec, coinbase := coinbase, homestead := ch.isHomestead,
        origin := msg.From }
    let out := ApplyMessage evm ws msg gp
    match out.err with
    | some e => .fail e out.st.state out.st.gp usedGas
    | none =>
      let gas := out.usedGas
      let root : List Nat :=
        if ch.isByzantium then [] else ch.intermediateRoot out.st.state ch.isEIP158
      let ws2 : WorldState :=
        if ch.isByzantium then ch.finalise out.st.state true else out.st.state
      let usedGas' := u64add usedGas gas
      let logs := ws2.logs tx.hash
      let receipt : Receipt :=
        { postState := root
          failed := out.failed
          cumulativeGasUsed := usedGas'
          txHash := tx.hash
          gasUsed := gas
          contractAddress :=
            if msg.To.isNone then some (ch.createAddress msg.From tx.nonce) else none
          logs := logs
          bloom := ch.createBloom logs }
      .ok receipt gas ws2 out.st.gp usedGas'

/-- The block header data `Process` reads: transactions, gas limit,
height, hash, and the fee recipient (header coinbase). -/
structure Block where
  transactions : List Transaction
  gasLimit : Nat
  number : Nat
  hash : Nat
  coinbase : Addr

/-- Go's `(receipts, logs, usedGas, err)` return of `Process`, plus the
final world state. On the error path Go returns `nil, nil, 0, err`,
modelled as empty lists and zero. -/
structure ProcessOut where
  receipts : List Receipt
  logs : List Nat
  usedGas : Nat
  err : Option Err
  ws : WorldState

/-- The transaction loop of `Process` (state_processor.go, lines
83-100): `Prepare`, `ApplyTransaction`, abort the whole block on the
first error, else accumulate the receipt and its logs; after the last
transaction the consensus engine's `Finalize` runs. -/
def ProcessLoop (ch : Chain) (blk : Block) :
    List Transaction → Nat → WorldState → Nat → Nat →
    List Receipt → List Nat → ProcessOut
  | [], _, ws, _, usedGas, receipts, allLogs =>
    ⟨receipts, allLogs, usedGas, none, ch.finalize ws⟩
  | tx :: rest, i, ws, gp, usedGas, receipts, allLogs =>
    let ws1 := ws.Prepare tx.hash blk.hash i
    match ApplyTransaction ch blk.coinbase gp ws1 tx usedGas with
    | .fail e ws' _ _ => ⟨[], [], 0, some e, ws'⟩
    | .ok r _ ws' gp' usedGas' =>
      ProcessLoop ch blk rest (i + 1) ws' gp' usedGas'
        (receipts ++ [r]) (allLogs ++ r.logs)

/-- `Process` (state_processor.go, lines 67-101): fresh gas pool at the
block gas limit, the one-shot DAO hard-fork mutation when the height
matches, then the transaction loop. -/
def Process (ch : Chain) (blk : Block) (ws : WorldState) : ProcessOut :=
  let gp := GasPool.AddGas 0 blk.gasLimit
  let ws :=
    if ch.daoForkSupport ∧ ch.daoForkBlock = some blk.number then
      ch.applyDAOHardFork ws
    else ws
  ProcessLoop ch blk blk.transactions 0 ws gp 0 [] []

/-- Projection: the receipt's contract-address field of an
`ApplyResult`, when it is a success. -/
def ApplyResult.contractAddressOf : ApplyResult → Option (Option Addr)
  | .ok r _ _ _ _ => some r.contractAddress
  | .fail _ _ _ _ => none

/-- Projection: the receipt's failed flag of an `ApplyResult`, when it
is a success. -/
def ApplyResult.failedOf : ApplyResult → Option Bool
  | .ok r _ _ _ _ => some r.failed
  | .fail _ _ _ _ => none

/-- A concrete world state used to instantiate the theorems: every
balance is `10^9`, every nonce 5, no pending refund, no logs. -/
def wsX : WorldState :=
  { balance := fun _ => 10 ^ 9, nonce := fun _ => 5, refund := 0,
    logs := fun _ => [], thash := 0, bhash := 0, txIndex := 0 }

/-- An executor that reports the supplied optional error and returns the
state and gas untouched, used to instantiate the theorems. -/
def execWith (e : Option Err) : Executor :=
  { create := fun ws _ _ g _ => ⟨[], g, e, ws⟩
    call := fun ws _ _ _ g _ => ⟨[], g, e, ws⟩ }

/-- A concrete EVM around `execWith`: coinbase 99, homestead, origin 1. -/
def evmX (e : Option Err) : EVM := ⟨execWith e, 99, true, 1⟩

/-- A plain value-transfer message: sender 1, recipient 2, price 1, gas
limit 30000, matching nonce. -/
def msgCall : Message := ⟨1, some 2, 1, 30000, 0, 5, true, []⟩

/-- A contract-creation message with gas limit 60000. -/
def msgCreate : Message := ⟨1, none, 1, 60000, 0, 5, true, []⟩

/-- A message whose gas cost `30000 * 10^9` exceeds the `wsX` balance. -/
def msgPoor : Message := ⟨1, some 2, 10 ^ 9, 30000, 0, 5, true, []⟩

/-- A message with nonce 3 while the `wsX` account nonce is 5. -/
def msgStale : Message := ⟨1, some 2, 1, 30000, 0, 3, true, []⟩

/-- A message whose 10000 gas limit is below the intrinsic 21000. -/
def msgSmall : Message := ⟨1, some 2, 1, 10000, 0, 5, true, []⟩

/-- A chain whose signer recovery always fails, used to instantiate the
block-abort theorem. -/
def chFail : Chain :=
  { asMessage := fun _ => .error (.other 7)
    isHomestead := true, isByzantium := false, isEIP158 := false
    createAddress := fun a n => a * 1000003 + n
    createBloom := fun _ => 0
    finalise := fun ws _ => ws
    intermediateRoot := fun _ _ => []
    finalize := fun ws => ws
    exec := execWith none
    daoForkSupport := false, daoForkBlock := none
    applyDAOHardFork := fun ws => ws }

/-- A chain that recovers every transaction to a creation message with
gas limit 60000 and no nonce check. -/
def chCreate : Chain :=
  { chFail with asMessage := fun t => .ok ⟨1, none, 1, 60000, 0, t.nonce, false, []⟩ }

/-- A chain that recovers every transaction to `msgCall` and whose
executor reports the opaque vm error 3. -/
def chRevert : Chain :=
  { chFail with asMessage := fun _ => .ok msgCall, exec := execWith (some (.other 3)) }

/-- A concrete block with no transactions of its own, gas limit 200000;
the theorems run explicit transaction lists through its loop. -/
def blkX : Block := ⟨[], 200000, 1, 77, 99⟩

/-! ## Helper lemmas shared across the claim theorems -/

lemma u64add_eq_of_lt {a b : Nat} (h : a + b < U64MOD) : u64add a b = a + b := by
  simp [u64add, Nat.mod_eq_of_lt h]

lemma u64sub_eq_of_le {a b : Nat} (hb : b ≤ a) (ha : a < U64MOD) :
    u64sub a b = a - b := by
  simp only [u64sub, U64MOD] at *
  omega

lemma u64mul_eq_of_lt {a b : Nat} (h : a * b < U64MOD) : u64mul a b = a * b := by
  simp [u64mul, Nat.mod_eq_of_lt h]

lemma AddBalance_balance (ws : WorldState) (a : Addr) (amt : Int) (x : Addr) :
    (ws.AddBalance a amt).balance x =
      if x = a then ws.balance x + amt else ws.balance x := rfl

lemma AddBalance_nonce (ws : WorldState) (a : Addr) (amt : Int) (x : Addr) :
    (ws.AddBalance a amt).nonce x = ws.nonce x := rfl

lemma SubBalance_balance (ws : WorldState) (a : Addr) (amt : Int) (x : Addr) :
    (ws.SubBalance a amt).balance x =
      if x = a then ws.balance x - amt else ws.balance x := rfl

lemma SubBalance_nonce (ws : WorldState) (a : Addr) (amt : Int) (x : Addr) :
    (ws.SubBalance a amt).nonce x = ws.nonce x := rfl

lemma SetNonce_nonce (ws : WorldState) (a : Addr) (n : Nat) (x : Addr) :
    (ws.SetNonce a n).nonce x = if x = a then n else ws.nonce x := rfl

lemma IntrinsicGas_error (data : List Nat) (cc hs : Bool) (e : Err)
    (h : IntrinsicGas data cc hs = .error e) : e = .outOfGas := by
  simp only [IntrinsicGas] at h
  repeat' split at h
  all_goals first
  | exact (Except.error.inj h).symm
  | simp at h

lemma buyGas_ok_elim (st st' : StateTransition) (h : st.buyGas = .ok st') :
    ¬ st.state.balance st.msg.From < (st.msg.Gas : Int) * (st.gasPrice : Int) ∧
    st.msg.Gas ≤ st.gp ∧
    st' = { st with
              gp := st.gp - st.msg.Gas
              gas := u64add st.gas st.msg.Gas
              initialGas := st.msg.Gas
              state := st.state.SubBalance st.msg.From
                ((st.msg.Gas : Int) * (st.gasPrice : Int)) } := by
  simp only [StateTransition.buyGas] at h
  split at h
  · simp at h
  · next hbal =>
    cases hsub : GasPool.SubGas st.gp st.msg.Gas with
    | error e => rw [hsub] at h; simp at h
    | ok gp' =>
      rw [hsub] at h
      simp only [GasPool.SubGas] at hsub
      split at hsub
      · simp at hsub
      · next hge =>
        simp only [Except.ok.injEq] at hsub h
        subst hsub
        exact ⟨hbal, by omega, h.symm⟩

lemma preCheck_ok_elim (st st' : StateTransition) (h : st.preCheck = .ok st') :
    st.buyGas = .ok st' ∧
    (st.msg.CheckNonce = true → st.state.nonce st.msg.From = st.msg.Nonce) := by
  simp only [StateTransition.preCheck] at h
  split at h
  · split at h
    · simp at h
    · split at h
      · simp at h
      · next h1 h2 => exact ⟨h, fun _ => by omega⟩
  · next hc => exact ⟨h, fun hcc => absurd hcc hc⟩

lemma useGas_ok_elim (st st' : StateTransition) (g : Nat)
    (h : st.useGas g = .ok st') :
    g ≤ st.gas ∧ st' = { st with gas := st.gas - g } := by
  simp only [StateTransition.useGas] at h
  split at h
  · simp at h
  · next hge =>
    simp only [Except.ok.injEq] at h
    exact ⟨by omega, h.symm⟩

lemma TransitionDb_preCheck_error (st : StateTransition) (e : Err)
    (h : st.preCheck = .error e) :
    st.TransitionDb = ⟨[], 0, false, some e, st⟩ := by
  simp only [StateTransition.TransitionDb, h]

lemma TransitionDb_pipeline (st0 st1 st2 st3 : StateTransition) (g : Nat)
    (ret : List Nat) (vmerr : Option Err)
    (hpre : st0.preCheck = .ok st1)
    (hig : IntrinsicGas st1.data st1.msg.To.isNone st1.evm.homestead = .ok g)
    (huse : st1.useGas g = .ok st2)
    (hdis : st2.execDispatch = (ret, st3, vmerr)) :
    st0.TransitionDb =
      if vmerr = some Err.insufficientBalance then
        ⟨[], 0, false, some Err.insufficientBalance, st3⟩
      else
        let st4 := st3.refundGas
        let st5 := { st4 with
                       state := st4.state.AddBalance st4.evm.coinbase
                         ((st4.gasUsed : Int) * (st4.gasPrice : Int)) }
        ⟨ret, st5.gasUsed, vmerr.isSome, none, st5⟩ := by
  simp only [StateTransition.TransitionDb, hpre, hig, huse, hdis]

lemma TransitionDb_intrinsic_fail (st0 st1 : StateTransition)
    (hpre : st0.preCheck = .ok st1)
    (hfail : ∀ g, IntrinsicGas st1.data st1.msg.To.isNone st1.evm.homestead = .ok g →
      st1.gas < g) :
    st0.TransitionDb = ⟨[], 0, false, some Err.outOfGas, st1⟩ := by
  cases hig : IntrinsicGas st1.data st1.msg.To.isNone st1.evm.homestead with
  | error e =>
    have he : e = Err.outOfGas := IntrinsicGas_error _ _ _ _ hig
    subst he
    simp only [StateTransition.TransitionDb, hpre, hig]
  | ok g =>
    have hlt := hfail g hig
    have huse : st1.useGas g = .error .outOfGas := by
      simp [StateTransition.useGas, hlt]
    simp only [StateTransition.TransitionDb, hpre, hig, huse]

/-! ## Claim theorems -/

/-- C3: when the message requests nonce validation, `preCheck` succeeds
only when the sender's account nonce equals the message's nonce exactly;
a strictly greater account nonce fails with `NonceTooLow` and a strictly
smaller one with `NonceTooHigh`, and in both cases `TransitionDb`
returns before any gas purchase or state mutation, with the state
unchanged. -/
theorem preCheck_nonce_exact (st : StateTransition)
    (hc : st.msg.CheckNonce = true) :
    (st.msg.Nonce < st.state.nonce st.msg.From →
      st.preCheck = .error .nonceTooLow ∧
      st.TransitionDb = ⟨[], 0, false, some .nonceTooLow, st⟩) ∧
    (st.state.nonce st.msg.From < st.msg.Nonce →
      st.preCheck = .error .nonceTooHigh ∧
      st.TransitionDb = ⟨[], 0, false, some .nonceTooHigh, st⟩) ∧
    (∀ st', st.preCheck = .ok st' → st.state.nonce st.msg.From = st.msg.Nonce) := by
  refine ⟨?_, ?_, ?_⟩
  · intro h
    have h1 : ¬ st.state.nonce st.msg.From < st.msg.Nonce := by omega
    have hp : st.preCheck = .error .nonceTooLow := by
      simp [StateTransition.preCheck, hc, h1, h]
    exact ⟨hp, TransitionDb_preCheck_error st _ hp⟩
  · intro h
    have hp : st.preCheck = .error .nonceTooHigh := by
      simp [StateTransition.preCheck, hc, h]
    exact ⟨hp, TransitionDb_preCheck_error st _ hp⟩
  · intro st' hok
    rcases Nat.lt_trichotomy (st.state.nonce st.msg.From) st.msg.Nonce with h | h | h
    · exfalso
      simp [StateTransition.preCheck, hc, h] at hok
    · exact h
    · exfalso
      have h1 : ¬ st.state.nonce st.msg.From < st.msg.Nonce := by omega
      simp [StateTransition.preCheck, hc, h1, h] at hok

/-- C3 witness: with account nonce 5 and message nonce 3, `preCheck`
fails with `NonceTooLow`. -/
theorem preCheck_nonce_exact_witness :
    (NewStateTransition (evmX none) wsX msgStale 100000).msg.CheckNonce = true ∧
    (NewStateTransition (evmX none) wsX msgStale 100000).msg.Nonce <
      (NewStateTransition (evmX none) wsX msgStale 100000).state.nonce
        (NewStateTransition (evmX none) wsX msgStale 100000).msg.From ∧
    (NewStateTransition (evmX none) wsX msgStale 100000).preCheck = .error .nonceTooLow :=
  ⟨rfl, by decide,
    ((preCheck_nonce_exact (NewStateTransition (evmX none) wsX msgStale 100000) rfl).1
      (by decide)).1⟩

/-- C2: the gas-purchase cost is `gasLimit * gasPrice` (an exact big-int
product); a sender balance strictly below the cost fails with
`InsufficientBalanceForGas`; a pool below the gas limit fails with
`GasLimitReached`; on any `preCheck`/`buyGas` failure `TransitionDb`
returns with the original state, so no balance debit and no pool
subtraction is retained; on success the working gas counter and
`initialGas` both equal the gas limit and the sender's balance is
debited by the cost before any execution. -/
theorem buyGas_spec (st : StateTransition)
    (h0 : st.gas = 0) (hg : st.msg.Gas < U64MOD) :
    (st.state.balance st.msg.From < (st.msg.Gas : Int) * (st.gasPrice : Int) →
      st.buyGas = .error .insufficientBalanceForGas) ∧
    (¬ st.state.balance st.msg.From < (st.msg.Gas : Int) * (st.gasPrice : Int) →
      st.gp < st.msg.Gas → st.buyGas = .error .gasLimitReached) ∧
    (∀ e, st.preCheck = .error e →
      st.TransitionDb = ⟨[], 0, false, some e, st⟩) ∧
    (∀ st', st.buyGas = .ok st' →
      st'.gas = st.msg.Gas ∧ st'.initialGas = st.msg.Gas ∧
      st'.state.balance st.msg.From =
        st.state.balance st.msg.From - (st.msg.Gas : Int) * (st.gasPrice : Int) ∧
      st'.gp = st.gp - st.msg.Gas ∧ st.msg.Gas ≤ st.gp) := by
  refine ⟨?_, ?_, ?_, ?_⟩
  · intro h
    simp [StateTransition.buyGas, h]
  · intro hbal hlt
    simp [StateTransition.buyGas, hbal, GasPool.SubGas, hlt]
  · intro e he
    exact TransitionDb_preCheck_error st e he
  · intro st' hok
    obtain ⟨hbal, hge, rfl⟩ := buyGas_ok_elim st st' hok
    refine ⟨?_, rfl, ?_, rfl, hge⟩
    · simp [u64add, h0, Nat.mod_eq_of_lt hg]
    · simp [WorldState.SubBalance]

/-- C2 witness: `msgPoor`'s cost `30000 * 10^9` exceeds the `wsX`
balance `10^9` and gas purchase fails with `InsufficientBalanceForGas`. -/
theorem buyGas_spec_witness :
    (NewStateTransition (evmX none) wsX msgPoor 100000).gas = 0 ∧
    (NewStateTransition (evmX none) wsX msgPoor 100000).msg.Gas < U64MOD ∧
    (NewStateTransition (evmX none) wsX msgPoor 100000).state.balance
        (NewStateTransition (evmX none) wsX msgPoor 100000).msg.From <
      ((NewStateTransition (evmX none) wsX msgPoor 100000).msg.Gas : Int) *
        ((NewStateTransition (evmX none) wsX msgPoor 100000).gasPrice : Int) ∧
    (NewStateTransition (evmX none) wsX msgPoor 100000).buyGas =
      .error .insufficientBalanceForGas :=
  ⟨rfl, by decide, by decide,
    (buyGas_spec (NewStateTransition (evmX none) wsX msgPoor 100000) rfl (by decide)).1
      (by decide)⟩

/-- C9: when gas purchase has succeeded but the intrinsic-gas step fails
(the `IntrinsicGas` computation overflows, or the working gas counter is
below the intrinsic amount), `TransitionDb` returns the `OutOfGas` error
while the sender-balance debit of `gasLimit * gasPrice` and the gas-pool
subtraction of `gasLimit` made by the purchase are retained — no
rollback of the purchase happens on this error path. -/
theorem transitionDb_outOfGas_retains_purchase
    (evm : EVM) (ws : WorldState) (msg : Message) (gp : Nat)
    (st1 : StateTransition)
    (hpre : (NewStateTransition evm ws msg gp).preCheck = .ok st1)
    (hfail : ∀ g, IntrinsicGas st1.data st1.msg.To.isNone st1.evm.homestead = .ok g →
      st1.gas < g) :
    (NewStateTransition evm ws msg gp).TransitionDb =
      ⟨[], 0, false, some Err.outOfGas, st1⟩ ∧
    st1.state.balance msg.From =
      ws.balance msg.From - (msg.Gas : Int) * (msg.GasPrice : Int) ∧
    st1.gp = gp - msg.Gas ∧ msg.Gas ≤ gp := by
  obtain ⟨hbuy, -⟩ := preCheck_ok_elim _ _ hpre
  obtain ⟨hbal, hge, hst⟩ := buyGas_ok_elim _ _ hbuy
  subst hst
  refine ⟨TransitionDb_intrinsic_fail _ _ hpre hfail, ?_, rfl, hge⟩
  simp [WorldState.SubBalance, NewStateTransition]

/-- C9 witness: `msgSmall` buys 10000 gas, which is below the intrinsic
21000; the transition fails `OutOfGas` with the debit of `10000 * 1` and
the pool subtraction of 10000 retained. -/
theorem transitionDb_outOfGas_retains_purchase_witness :
    (NewStateTransition (evmX none) wsX msgSmall 100000).TransitionDb.err =
      some Err.outOfGas ∧
    (NewStateTransition (evmX none) wsX msgSmall 100000).TransitionDb.st.state.balance 1 =
      10 ^ 9 - 10000 ∧
    (NewStateTransition (evmX none) wsX msgSmall 100000).TransitionDb.st.gp = 90000 := by
  obtain ⟨h1, h2, h3, -⟩ :=
    transitionDb_outOfGas_retains_purchase (evmX none) wsX msgSmall 100000 _ rfl
      (fun g hg => by
        have h21 : (21000 : Nat) = g := Except.ok.inj hg
        show (10000 : Nat) < g
        omega)
  refine ⟨?_, ?_, ?_⟩
  · rw [h1]
  · rw [h1]; exact h2
  · rw [h1]; exact h3

/-- C1 (amended): when the Executor dispatch reports the distinguished
insufficient-balance-for-value-transfer error, `TransitionDb` returns
immediately with that error, zero reported gas used, and the `failed`
status flag `false` — the non-nil error, which every caller treats as
fatal before reading the flag, carries the failure, not the status
flag; the post-dispatch state is returned untouched, so no refund
settlement and no fee-recipient credit are performed. -/
theorem insufficientBalance_hard_stop (st0 st1 st2 st3 : StateTransition) (g : Nat)
    (ret : List Nat)
    (hpre : st0.preCheck = .ok st1)
    (hig : IntrinsicGas st1.data st1.msg.To.isNone st1.evm.homestead = .ok g)
    (huse : st1.useGas g = .ok st2)
    (hdis : st2.execDispatch = (ret, st3, some Err.insufficientBalance)) :
    st0.TransitionDb = ⟨[], 0, false, some Err.insufficientBalance, st3⟩ := by
  rw [TransitionDb_pipeline st0 st1 st2 st3 g ret _ hpre hig huse hdis]
  simp

/-- C1 counterexample: on a concrete run whose Executor `call` reports
`vm.ErrInsufficientBalance`, `TransitionDb` returns the error and zero
gas used, but the `failed` status flag is `false` — Go's
`return nil, 0, false, vmerr` — contradicting the claim's
"failure status". -/
theorem insufficientBalance_hard_stop_counterexample :
    (ApplyMessage (evmX (some Err.insufficientBalance)) wsX msgCall 100000).err =
      some Err.insufficientBalance ∧
    (ApplyMessage (evmX (some Err.insufficientBalance)) wsX msgCall 100000).usedGas = 0 ∧
    (ApplyMessage (evmX (some Err.insufficientBalance)) wsX msgCall 100000).failed = false :=
  ⟨rfl, rfl, rfl⟩

/-- C1 witness: the amended theorem applied to the concrete run of the
counterexample's shape. -/
theorem insufficientBalance_hard_stop_witness :
    (NewStateTransition (evmX (some Err.insufficientBalance)) wsX msgCall 100000).TransitionDb.err =
      some Err.insufficientBalance ∧
    (NewStateTransition (evmX (some Err.insufficientBalance)) wsX msgCall 100000).TransitionDb.usedGas = 0 ∧
    (NewStateTransition (evmX (some Err.insufficientBalance)) wsX msgCall 100000).TransitionDb.failed = false := by
  have h := insufficientBalance_hard_stop
    (NewStateTransition (evmX (some Err.insufficientBalance)) wsX msgCall 100000)
    _ _ _ _ _ rfl rfl rfl rfl
  rw [h]
  exact ⟨rfl, rfl, rfl⟩

/-- C10: for a message with a recipient, the transition sets the
sender's nonce to its current value plus one (the Go `uint64` increment)
before invoking the Executor's `call`, and after the dispatch the
component itself never touches any nonce again — on the error path as
well as the settle path the final state's nonces are exactly those of
the state the Executor returned; for a creation message the component
itself never modifies the sender's nonce: the state handed to `create`
carries the nonces unchanged from the initial state, and the final
state's nonces are those `create` returned. -/
theorem nonce_increment (st0 st1 st2 : StateTransition) (g : Nat)
    (hpre : st0.preCheck = .ok st1)
    (hig : IntrinsicGas st1.data st1.msg.To.isNone st1.evm.homestead = .ok g)
    (huse : st1.useGas g = .ok st2) :
    (∀ r, st2.msg.To = some r →
      (st2.state.SetNonce st2.msg.From
          (u64add (st2.state.nonce st2.msg.From) 1)).nonce st2.msg.From =
        u64add (st2.state.nonce st2.msg.From) 1 ∧
      (st2.state.nonce st2.msg.From + 1 < U64MOD →
        u64add (st2.state.nonce st2.msg.From) 1 = st2.state.nonce st2.msg.From + 1) ∧
      (∀ a, st0.TransitionDb.st.state.nonce a =
        (st2.evm.exec.call
          (st2.state.SetNonce st2.msg.From (u64add (st2.state.nonce st2.msg.From) 1))
          st2.msg.From st2.to st2.data st2.gas st2.value).state.nonce a)) ∧
    (st2.msg.To = none →
      (∀ a, st2.state.nonce a = st0.state.nonce a) ∧
      (∀ a, st0.TransitionDb.st.state.nonce a =
        (st2.evm.exec.create st2.state st2.msg.From st2.data st2.gas
          st2.value).state.nonce a)) := by
  obtain ⟨hbuy, -⟩ := preCheck_ok_elim _ _ hpre
  obtain ⟨-, -, hst1⟩ := buyGas_ok_elim _ _ hbuy
  obtain ⟨-, hst2⟩ := useGas_ok_elim _ _ _ huse
  constructor
  · intro r hr
    refine ⟨by simp [WorldState.SetNonce], fun h => u64add_eq_of_lt h, ?_⟩
    intro a
    have hdis : st2.execDispatch =
        (((st2.evm.exec.call
            (st2.state.SetNonce st2.msg.From (u64add (st2.state.nonce st2.msg.From) 1))
            st2.msg.From st2.to st2.data st2.gas st2.value)).ret,
         { st2 with
             state := (st2.evm.exec.call
               (st2.state.SetNonce st2.msg.From (u64add (st2.state.nonce st2.msg.From) 1))
               st2.msg.From st2.to st2.data st2.gas st2.value).state
             gas := (st2.evm.exec.call
               (st2.state.SetNonce st2.msg.From (u64add (st2.state.nonce st2.msg.From) 1))
               st2.msg.From st2.to st2.data st2.gas st2.value).remainingGas },
         (st2.evm.exec.call
           (st2.state.SetNonce st2.msg.From (u64add (st2.state.nonce st2.msg.From) 1))
           st2.msg.From st2.to st2.data st2.gas st2.value).vmerr) := by
      simp [StateTransition.execDispatch, StateTransition.to, hr]
    rw [TransitionDb_pipeline st0 st1 st2 _ g _ _ hpre hig huse hdis]
    split
    · rfl
    · simp [StateTransition.refundGas, WorldState.AddBalance]
  · intro hr
    constructor
    · intro a
      rw [hst2, hst1]
      rfl
    · intro a
      have hdis : st2.execDispatch =
          ((st2.evm.exec.create st2.state st2.msg.From st2.data st2.gas st2.value).ret,
           { st2 with
               state := (st2.evm.exec.create st2.state st2.msg.From st2.data st2.gas
                 st2.value).state
               gas := (st2.evm.exec.create st2.state st2.msg.From st2.data st2.gas
                 st2.value).remainingGas },
           (st2.evm.exec.create st2.state st2.msg.From st2.data st2.gas st2.value).vmerr) := by
        simp [StateTransition.execDispatch, hr]
      rw [TransitionDb_pipeline st0 st1 st2 _ g _ _ hpre hig huse hdis]
      split
      · rfl
      · simp [StateTransition.refundGas, WorldState.AddBalance]

/-- C10 witness: on a concrete call run with account nonce 5, the state
handed to the Executor carries nonce 6 and the final state still has
nonce 6. -/
theorem nonce_increment_witness :
    msgCall.To = some 2 ∧
    (NewStateTransition (evmX none) wsX msgCall 100000).TransitionDb.st.state.nonce 1 = 6 := by
  obtain ⟨hcall, -⟩ :=
    nonce_increment (NewStateTransition (evmX none) wsX msgCall 100000) _ _ _ rfl rfl rfl
  obtain ⟨-, -, hfin⟩ := hcall 2 rfl
  refine ⟨rfl, ?_⟩
  rw [hfin 1]
  rfl

lemma refundGas_spec (st : StateTransition)
    (hle : st.gas ≤ st.initialGas) (hinit : st.initialGas < U64MOD) :
    st.refundGas = { st with
        gas := st.gas + min (st.gasUsed / 2) st.state.refund
        state := st.state.AddBalance st.msg.From
          (((st.gas + min (st.gasUsed / 2) st.state.refund : Nat) : Int) *
            (st.gasPrice : Int))
        gp := GasPool.AddGas st.gp
          (st.gas + min (st.gasUsed / 2) st.state.refund) } := by
  have hgu : st.gasUsed = st.initialGas - st.gas := u64sub_eq_of_le hle hinit
  have hmin : (if st.gasUsed / 2 > st.state.refund then st.state.refund
      else st.gasUsed / 2) = min (st.gasUsed / 2) st.state.refund := by
    split <;> omega
  have hadd : u64add st.gas (min (st.gasUsed / 2) st.state.refund)
      = st.gas + min (st.gasUsed / 2) st.state.refund := by
    apply u64add_eq_of_lt
    have h1 : min (st.gasUsed / 2) st.state.refund ≤ st.gasUsed / 2 :=
      Nat.min_le_left _ _
    omega
  simp only [StateTransition.refundGas, hmin, hadd]

lemma TransitionDb_settle (st0 st1 st2 st3 : StateTransition) (g : Nat)
    (ret : List Nat) (vmerr : Option Err)
    (hpre : st0.preCheck = .ok st1)
    (hig : IntrinsicGas st1.data st1.msg.To.isNone st1.evm.homestead = .ok g)
    (huse : st1.useGas g = .ok st2)
    (hdis : st2.execDispatch = (ret, st3, vmerr))
    (hvm : vmerr ≠ some Err.insufficientBalance)
    (hle : st3.gas ≤ st3.initialGas) (hinit : st3.initialGas < U64MOD)
    (hfc : st3.msg.From ≠ st3.evm.coinbase) :
    st0.TransitionDb.ret = ret ∧
    st0.TransitionDb.err = none ∧
    st0.TransitionDb.failed = vmerr.isSome ∧
    st0.TransitionDb.usedGas =
      st3.initialGas - (st3.gas + min (st3.gasUsed / 2) st3.state.refund) ∧
    st0.TransitionDb.st.gas = st3.gas + min (st3.gasUsed / 2) st3.state.refund ∧
    st0.TransitionDb.st.gp =
      GasPool.AddGas st3.gp (st3.gas + min (st3.gasUsed / 2) st3.state.refund) ∧
    st0.TransitionDb.st.state.balance st3.msg.From =
      st3.state.balance st3.msg.From +
        ((st3.gas + min (st3.gasUsed / 2) st3.state.refund : Nat) : Int) *
          (st3.gasPrice : Int) ∧
    st0.TransitionDb.st.state.balance st3.evm.coinbase =
      st3.state.balance st3.evm.coinbase +
        ((st3.initialGas - (st3.gas + min (st3.gasUsed / 2) st3.state.refund) : Nat) : Int) *
          (st3.gasPrice : Int) := by
  have hgas : st3.gas + min (st3.gasUsed / 2) st3.state.refund ≤ st3.initialGas := by
    have h1 : min (st3.gasUsed / 2) st3.state.refund ≤ st3.gasUsed / 2 :=
      Nat.min_le_left _ _
    have hgu : st3.gasUsed = st3.initialGas - st3.gas := u64sub_eq_of_le hle hinit
    omega
  have hused : u64sub st3.initialGas (st3.gas + min (st3.gasUsed / 2) st3.state.refund)
      = st3.initialGas - (st3.gas + min (st3.gasUsed / 2) st3.state.refund) :=
    u64sub_eq_of_le hgas hinit
  have hmain := TransitionDb_pipeline st0 st1 st2 st3 g ret vmerr hpre hig huse hdis
  rw [if_neg hvm, refundGas_spec st3 hle hinit] at hmain
  rw [hmain]
  refine ⟨rfl, rfl, rfl, hused, rfl, rfl, ?_, ?_⟩
  · simp [WorldState.AddBalance, hfc]
  · have hfc' : st3.evm.coinbase ≠ st3.msg.From := Ne.symm hfc
    have hused2 : u64sub st3.initialGas
        (st3.gas + min (u64sub st3.initialGas st3.gas / 2) st3.state.refund) =
        st3.initialGas -
          (st3.gas + min (u64sub st3.initialGas st3.gas / 2) st3.state.refund) :=
      hused
    simp [WorldState.AddBalance, StateTransition.gasUsed, hused2, hfc']

/-- C4: for every settled transaction, the refund applied is
`min(gasUsed / 2, refund counter)`; it is added to the working gas
counter, the sender is credited `remainingGas * gasPrice` (with
`remainingGas` the refund-augmented counter), `remainingGas` is returned
to the block gas pool, and the fee recipient is credited
`gasUsed * gasPrice` with `gasUsed = initialGas - remainingGas` computed
after the refund credit, so refunded gas is excluded from the fee. -/
theorem refund_settlement (st0 st1 st2 st3 : StateTransition) (g : Nat)
    (ret : List Nat) (vmerr : Option Err)
    (hpre : st0.preCheck = .ok st1)
    (hig : IntrinsicGas st1.data st1.msg.To.isNone st1.evm.homestead = .ok g)
    (huse : st1.useGas g = .ok st2)
    (hdis : st2.execDispatch = (ret, st3, vmerr))
    (hvm : vmerr ≠ some Err.insufficientBalance)
    (hle : st3.gas ≤ st3.initialGas) (hinit : st3.initialGas < U64MOD)
    (hfc : st3.msg.From ≠ st3.evm.coinbase) :
    st0.TransitionDb.err = none ∧
    st0.TransitionDb.st.gas =
      st3.gas + min (st3.gasUsed / 2) st3.state.refund ∧
    st0.TransitionDb.st.state.balance st3.msg.From =
      st3.state.balance st3.msg.From +
        ((st3.gas + min (st3.gasUsed / 2) st3.state.refund : Nat) : Int) *
          (st3.gasPrice : Int) ∧
    st0.TransitionDb.st.gp =
      GasPool.AddGas st3.gp (st3.gas + min (st3.gasUsed / 2) st3.state.refund) ∧
    st0.TransitionDb.usedGas =
      st3.initialGas - (st3.gas + min (st3.gasUsed / 2) st3.state.refund) ∧
    st0.TransitionDb.st.state.balance st3.evm.coinbase =
      st3.state.balance st3.evm.coinbase +
        ((st3.initialGas - (st3.gas + min (st3.gasUsed / 2) st3.state.refund) : Nat) : Int) *
          (st3.gasPrice : Int) := by
  obtain ⟨-, herr, -, hused, hgas, hgp, hfrom, hcoin⟩ :=
    TransitionDb_settle st0 st1 st2 st3 g ret vmerr hpre hig huse hdis hvm hle hinit hfc
  exact ⟨herr, hgas, hfrom, hgp, hused, hcoin⟩

/-- C4 witness: the plain transfer `msgCall` with an error-free Executor
settles with 21000 gas used, `10^9 - 21000` left on the sender and
`10^9 + 21000` on the fee recipient. -/
theorem refund_settlement_witness :
    (NewStateTransition (evmX none) wsX msgCall 100000).TransitionDb.err = none ∧
    (NewStateTransition (evmX none) wsX msgCall 100000).TransitionDb.usedGas = 21000 ∧
    (NewStateTransition (evmX none) wsX msgCall 100000).TransitionDb.st.gp = 79000 ∧
    (NewStateTransition (evmX none) wsX msgCall 100000).TransitionDb.st.state.balance 1 =
      10 ^ 9 - 21000 ∧
    (NewStateTransition (evmX none) wsX msgCall 100000).TransitionDb.st.state.balance 99 =
      10 ^ 9 + 21000 := by
  obtain ⟨h1, -, h3, -, h5, h6⟩ :=
    refund_settlement (NewStateTransition (evmX none) wsX msgCall 100000) _ _ _ _ _ _
      rfl rfl rfl rfl (by decide) (by decide) (by decide) (by decide)
  refine ⟨h1, h5.trans (by decide), ?_, h3.trans (by decide), h6.trans (by decide)⟩
  have h4 := (TransitionDb_settle (NewStateTransition (evmX none) wsX msgCall 100000)
    _ _ _ _ _ _ rfl rfl rfl rfl (by decide) (by decide) (by decide) (by decide)).2.2.2.2.2.1
  exact h4.trans (by decide)

lemma ApplyTransaction_ok (ch : Chain) (coinbase : Addr) (gp : Nat) (ws : WorldState)
    (tx : Transaction) (usedGas : Nat) (msg : Message)
    (hmsg : ch.asMessage tx = .ok msg)
    (herr : (ApplyMessage ⟨ch.exec, coinbase, ch.isHomestead, msg.From⟩ ws msg gp).err
      = none) :
    ApplyTransaction ch coinbase gp ws tx usedGas =
      (let out := ApplyMessage ⟨ch.exec, coinbase, ch.isHomestead, msg.From⟩ ws msg gp
       let root : List Nat :=
         if ch.isByzantium then [] else ch.intermediateRoot out.st.state ch.isEIP158
       let ws2 := if ch.isByzantium then ch.finalise out.st.state true else out.st.state
       let usedGas' := u64add usedGas out.usedGas
       let logs := ws2.logs tx.hash
       .ok ⟨root, out.failed, usedGas', tx.hash, out.usedGas,
            if msg.To.isNone then some (ch.createAddress msg.From tx.nonce) else none,
            logs, ch.createBloom logs⟩ out.usedGas ws2 out.st.gp usedGas') := by
  simp only [ApplyTransaction, hmsg, herr]

/-- C8: a transaction whose recovered message has no recipient yields a
receipt whose contract-address field is the address-derivation function
applied to the sender and the transaction's own (pre-increment) nonce;
with a recipient the field is left unset. -/
theorem receipt_contract_address (ch : Chain) (coinbase : Addr) (gp : Nat)
    (ws : WorldState) (tx : Transaction) (usedGas : Nat) (msg : Message)
    (hmsg : ch.asMessage tx = .ok msg)
    (herr : (ApplyMessage ⟨ch.exec, coinbase, ch.isHomestead, msg.From⟩ ws msg gp).err
      = none) :
    (ApplyTransaction ch coinbase gp ws tx usedGas).contractAddressOf =
      some (if msg.To.isNone
            then some (ch.createAddress msg.From tx.nonce) else none) := by
  rw [ApplyTransaction_ok ch coinbase gp ws tx usedGas msg hmsg herr]
  rfl

/-- C8 witness: a creation transaction with nonce 3 under `chCreate`
produces a receipt whose contract address is the derivation function at
(sender 1, nonce 3). -/
theorem receipt_contract_address_witness :
    (ApplyTransaction chCreate 99 100000 wsX ⟨5, 3⟩ 0).contractAddressOf =
      some (some (chCreate.createAddress 1 3)) :=
  receipt_contract_address chCreate 99 100000 wsX ⟨5, 3⟩ 0
    ⟨1, none, 1, 60000, 0, 3, false, []⟩ rfl rfl

/-- C7: an Executor error other than insufficient-balance does not abort
the application: `TransitionDb` completes with a nil error and failed
status, the fee recipient is credited `gasUsed * gasPrice`,
`ApplyTransaction` returns a failed-status receipt carrying the gas
consumed, and the block loop proceeds to the next transaction instead of
rejecting the block. -/
theorem vm_error_is_revert (ch : Chain) (blk : Block) (tx : Transaction)
    (msg : Message) (ws0 : WorldState) (i gp usedGas : Nat)
    (st1 st2 st3 : StateTransition) (g : Nat) (ret : List Nat) (e : Err)
    (rest : List Transaction) (receipts : List Receipt) (allLogs : List Nat)
    (hmsg : ch.asMessage tx = .ok msg)
    (hpre : (NewStateTransition ⟨ch.exec, blk.coinbase, ch.isHomestead, msg.From⟩
        (ws0.Prepare tx.hash blk.hash i) msg gp).preCheck = .ok st1)
    (hig : IntrinsicGas st1.data st1.msg.To.isNone st1.evm.homestead = .ok g)
    (huse : st1.useGas g = .ok st2)
    (hdis : st2.execDispatch = (ret, st3, some e))
    (he : e ≠ Err.insufficientBalance)
    (hle : st3.gas ≤ st3.initialGas) (hinit : st3.initialGas < U64MOD)
    (hfc : st3.msg.From ≠ st3.evm.coinbase) :
    (ApplyMessage ⟨ch.exec, blk.coinbase, ch.isHomestead, msg.From⟩
        (ws0.Prepare tx.hash blk.hash i) msg gp).err = none ∧
    (ApplyMessage ⟨ch.exec, blk.coinbase, ch.isHomestead, msg.From⟩
        (ws0.Prepare tx.hash blk.hash i) msg gp).failed = true ∧
    (ApplyMessage ⟨ch.exec, blk.coinbase, ch.isHomestead, msg.From⟩
          (ws0.Prepare tx.hash blk.hash i) msg gp).st.state.balance st3.evm.coinbase =
      st3.state.balance st3.evm.coinbase +
        ((ApplyMessage ⟨ch.exec, blk.coinbase, ch.isHomestead, msg.From⟩
            (ws0.Prepare tx.hash blk.hash i) msg gp).usedGas : Int) *
          (st3.gasPrice : Int) ∧
    ∃ r ws2,
      ApplyTransaction ch blk.coinbase gp (ws0.Prepare tx.hash blk.hash i) tx usedGas =
        .ok r
          (ApplyMessage ⟨ch.exec, blk.coinbase, ch.isHomestead, msg.From⟩
            (ws0.Prepare tx.hash blk.hash i) msg gp).usedGas
          ws2
          (ApplyMessage ⟨ch.exec, blk.coinbase, ch.isHomestead, msg.From⟩
            (ws0.Prepare tx.hash blk.hash i) msg gp).st.gp
          (u64add usedGas
            (ApplyMessage ⟨ch.exec, blk.coinbase, ch.isHomestead, msg.From⟩
              (ws0.Prepare tx.hash blk.hash i) msg gp).usedGas) ∧
      r.failed = true ∧
      r.gasUsed = (ApplyMessage ⟨ch.exec, blk.coinbase, ch.isHomestead, msg.From⟩
        (ws0.Prepare tx.hash blk.hash i) msg gp).usedGas ∧
      ProcessLoop ch blk (tx :: rest) i ws0 gp usedGas receipts allLogs =
        ProcessLoop ch blk rest (i + 1) ws2
          (ApplyMessage ⟨ch.exec, blk.coinbase, ch.isHomestead, msg.From⟩
            (ws0.Prepare tx.hash blk.hash i) msg gp).st.gp
          (u64add usedGas
            (ApplyMessage ⟨ch.exec, blk.coinbase, ch.isHomestead, msg.From⟩
              (ws0.Prepare tx.hash blk.hash i) msg gp).usedGas)
          (receipts ++ [r]) (allLogs ++ r.logs) := by
  obtain ⟨hret, herr, hfailed, hused, hgas, hgp, hfrom, hcoin⟩ :=
    TransitionDb_settle
      (NewStateTransition ⟨ch.exec, blk.coinbase, ch.isHomestead, msg.From⟩
        (ws0.Prepare tx.hash blk.hash i) msg gp) st1 st2 st3 g ret (some e)
      hpre hig huse hdis (fun hh => he (Option.some.inj hh)) hle hinit hfc
  have herr2 : (ApplyMessage ⟨ch.exec, blk.coinbase, ch.isHomestead, msg.From⟩
      (ws0.Prepare tx.hash blk.hash i) msg gp).err = none := herr
  have hug : (ApplyMessage ⟨ch.exec, blk.coinbase, ch.isHomestead, msg.From⟩
        (ws0.Prepare tx.hash blk.hash i) msg gp).usedGas =
      st3.initialGas - (st3.gas + min (st3.gasUsed / 2) st3.state.refund) := hused
  refine ⟨herr2, hfailed.trans rfl, ?_, ?_⟩
  · rw [hug]
    exact hcoin
  · refine ⟨_, _,
      ApplyTransaction_ok ch blk.coinbase gp (ws0.Prepare tx.hash blk.hash i) tx
        usedGas msg hmsg herr2, hfailed.trans rfl, rfl, ?_⟩
    simp only [ProcessLoop,
      ApplyTransaction_ok ch blk.coinbase gp (ws0.Prepare tx.hash blk.hash i) tx
        usedGas msg hmsg herr2]

/-- C7 witness: under `chRevert` (every call reports the opaque vm error
3), applying a transaction completes without error and with failed
status. -/
theorem vm_error_is_revert_witness :
    (ApplyMessage ⟨chRevert.exec, blkX.coinbase, chRevert.isHomestead, msgCall.From⟩
        (wsX.Prepare 5 77 0) msgCall 100000).err = none ∧
    (ApplyMessage ⟨chRevert.exec, blkX.coinbase, chRevert.isHomestead, msgCall.From⟩
        (wsX.Prepare 5 77 0) msgCall 100000).failed = true := by
  obtain ⟨h1, h2, -, -⟩ :=
    vm_error_is_revert chRevert blkX ⟨5, 5⟩ msgCall wsX 0 100000 0 _ _ _ _ _ (.other 3)
      [] [] [] rfl rfl rfl rfl rfl (by decide) (by decide) (by decide) (by decide)
  exact ⟨h1, h2⟩

/-- C6: `Process` runs the block's transactions in list order through
the loop, and on the first transaction error the loop stops with that
error, an empty receipt list, no logs and a zero gas total, the result
being the same whatever transactions follow — they are never applied. -/
theorem process_abort_on_first_error (ch : Chain) (blk : Block) (ws : WorldState)
    (tx : Transaction) (i : Nat) (ws0 ws' : WorldState) (gp gp' usedGas u' : Nat)
    (receipts : List Receipt) (allLogs : List Nat) (e : Err)
    (hfail : ApplyTransaction ch blk.coinbase gp (ws0.Prepare tx.hash blk.hash i) tx
      usedGas = .fail e ws' gp' u') :
    Process ch blk ws =
      ProcessLoop ch blk blk.transactions 0
        (if ch.daoForkSupport ∧ ch.daoForkBlock = some blk.number
         then ch.applyDAOHardFork ws else ws)
        (GasPool.AddGas 0 blk.gasLimit) 0 [] [] ∧
    ∀ rest, ProcessLoop ch blk (tx :: rest) i ws0 gp usedGas receipts allLogs =
      ⟨[], [], 0, some e, ws'⟩ := by
  refine ⟨rfl, ?_⟩
  intro rest
  simp only [ProcessLoop, hfail]

/-- C6 witness: under `chFail` (signer recovery always fails) the loop
aborts on the first transaction with the same rejected-block output
whether zero or one further transaction follows. -/
theorem process_abort_on_first_error_witness :
    ProcessLoop chFail blkX [⟨1, 0⟩] 0 wsX 200000 0 [] [] =
      ⟨[], [], 0, some (.other 7), wsX.Prepare 1 77 0⟩ ∧
    ProcessLoop chFail blkX [⟨1, 0⟩, ⟨2, 0⟩] 0 wsX 200000 0 [] [] =
      ⟨[], [], 0, some (.other 7), wsX.Prepare 1 77 0⟩ :=
  ⟨(process_abort_on_first_error chFail blkX wsX ⟨1, 0⟩ 0 wsX _ 200000 _ 0 _ [] [] _
      rfl).2 [],
   (process_abort_on_first_error chFail blkX wsX ⟨1, 0⟩ 0 wsX _ 200000 _ 0 _ [] [] _
      rfl).2 [⟨2, 0⟩]⟩

lemma U64MOD_eq : U64MOD = 18446744073709551616 := by norm_num [U64MOD]

lemma MaxUint64_eq : MaxUint64 = 18446744073709551615 := by norm_num [MaxUint64]

lemma MaxUint64_lt_U64MOD : MaxUint64 < U64MOD := by
  rw [U64MOD_eq, MaxUint64_eq]
  norm_num

lemma IntrinsicGas_core (data : List Nat) (base : Nat) (hbase : base ≤ MaxUint64) :
    (if 0 < data.length then
       if (MaxUint64 - base) / TxDataNonZeroGas <
           (data.filter (fun byt => byt ≠ 0)).length then
         (.error .outOfGas : Except Err Nat)
       else if (MaxUint64 - u64add base
             (u64mul (data.filter (fun byt => byt ≠ 0)).length TxDataNonZeroGas)) /
             TxDataZeroGas <
           data.length - (data.filter (fun byt => byt ≠ 0)).length then
         .error .outOfGas
       else
         .ok (u64add
           (u64add base (u64mul (data.filter (fun byt => byt ≠ 0)).length
             TxDataNonZeroGas))
           (u64mul (data.length - (data.filter (fun byt => byt ≠ 0)).length)
             TxDataZeroGas))
     else .ok base) =
    (if (MaxUint64 - base) / TxDataNonZeroGas <
        (data.filter (fun byt => byt ≠ 0)).length then
      (.error .outOfGas : Except Err Nat)
     else if (MaxUint64 - (base + (data.filter (fun byt => byt ≠ 0)).length *
           TxDataNonZeroGas)) / TxDataZeroGas <
        data.length - (data.filter (fun byt => byt ≠ 0)).length then
      .error .outOfGas
     else
      .ok (base + (data.filter (fun byt => byt ≠ 0)).length * TxDataNonZeroGas +
        (data.length - (data.filter (fun byt => byt ≠ 0)).length) * TxDataZeroGas)) := by
  set nz := (data.filter (fun byt => byt ≠ 0)).length with hnz
  set z := data.length - nz with hz
  by_cases hlen : 0 < data.length
  · rw [if_pos hlen]
    by_cases hg1 : (MaxUint64 - base) / TxDataNonZeroGas < nz
    · rw [if_pos hg1, if_pos hg1]
    · have h68 : nz * TxDataNonZeroGas ≤ MaxUint64 - base :=
        (Nat.le_div_iff_mul_le (by decide)).mp (Nat.le_of_not_lt hg1)
      have h68l : nz * 68 ≤ MaxUint64 - base := h68
      have hM := MaxUint64_eq
      have hU := U64MOD_eq
      have hmul1 : u64mul nz TxDataNonZeroGas = nz * TxDataNonZeroGas := by
        apply u64mul_eq_of_lt
        show nz * 68 < U64MOD
        omega
      have hadd1 : u64add base (nz * TxDataNonZeroGas) = base + nz * TxDataNonZeroGas := by
        apply u64add_eq_of_lt
        show base + nz * 68 < U64MOD
        omega
      rw [hmul1, hadd1, if_neg hg1, if_neg hg1]
      by_cases hg2 : (MaxUint64 - (base + nz * TxDataNonZeroGas)) / TxDataZeroGas < z
      · rw [if_pos hg2, if_pos hg2]
      · have h4 : z * TxDataZeroGas ≤ MaxUint64 - (base + nz * TxDataNonZeroGas) :=
          (Nat.le_div_iff_mul_le (by decide)).mp (Nat.le_of_not_lt hg2)
        have h4l : z * 4 ≤ MaxUint64 - (base + nz * 68) := h4
        have hmul2 : u64mul z TxDataZeroGas = z * TxDataZeroGas := by
          apply u64mul_eq_of_lt
          show z * 4 < U64MOD
          omega
        have hadd2 : u64add (base + nz * TxDataNonZeroGas) (z * TxDataZeroGas)
            = base + nz * TxDataNonZeroGas + z * TxDataZeroGas := by
          apply u64add_eq_of_lt
          show base + nz * 68 + z * 4 < U64MOD
          omega
        rw [hmul2, hadd2, if_neg hg2]
  · have h0 : data.length = 0 := by omega
    have hnz0 : nz = 0 := by
      rw [hnz]
      have hfl := List.length_filter_le (fun byt => decide (byt ≠ 0)) data
      omega
    have hz0 : z = 0 := by omega
    rw [if_neg hlen, hnz0, hz0]
    rw [if_neg (Nat.not_lt_zero _), if_neg (Nat.not_lt_zero _)]
    norm_num

/-- C5: `IntrinsicGas` guards each byte-cost addition with the check
`(maxUint64 - runningTotal) / perByteRate ≥ byteCount`, independently
for the non-zero-byte term and the zero-byte term, and returns
`OutOfGas` exactly when one of the two checks fails; whenever it
succeeds, the returned value is the exact, unwrapped and untruncated sum
of the base cost and the two byte-cost terms, and it is at most
`maxUint64` — never a wrapped 64-bit value. -/
theorem intrinsicGas_overflow_guard (data : List Nat) (cc hs : Bool) :
    (IntrinsicGas data cc hs = .error .outOfGas ↔
      (MaxUint64 - (if cc && hs then TxGasContractCreation else TxGas)) /
          TxDataNonZeroGas < (data.filter (fun byt => byt ≠ 0)).length ∨
      ((data.filter (fun byt => byt ≠ 0)).length ≤
          (MaxUint64 - (if cc && hs then TxGasContractCreation else TxGas)) /
            TxDataNonZeroGas ∧
        (MaxUint64 - ((if cc && hs then TxGasContractCreation else TxGas) +
            (data.filter (fun byt => byt ≠ 0)).length * TxDataNonZeroGas)) /
          TxDataZeroGas <
          data.length - (data.filter (fun byt => byt ≠ 0)).length)) ∧
    (∀ g, IntrinsicGas data cc hs = .ok g →
      g = (if cc && hs then TxGasContractCreation else TxGas) +
          (data.filter (fun byt => byt ≠ 0)).length * TxDataNonZeroGas +
          (data.length - (data.filter (fun byt => byt ≠ 0)).length) * TxDataZeroGas ∧
      g ≤ MaxUint64) := by
  have hbase : (if cc && hs then TxGasContractCreation else TxGas) ≤ MaxUint64 := by
    split
    · decide
    · decide
  have hmain : IntrinsicGas data cc hs =
      (if (MaxUint64 - (if cc && hs then TxGasContractCreation else TxGas)) /
          TxDataNonZeroGas < (data.filter (fun byt => byt ≠ 0)).length then
        (.error .outOfGas : Except Err Nat)
       else if (MaxUint64 - ((if cc && hs then TxGasContractCreation else TxGas) +
             (data.filter (fun byt => byt ≠ 0)).length * TxDataNonZeroGas)) /
           TxDataZeroGas <
          data.length - (data.filter (fun byt => byt ≠ 0)).length then
        .error .outOfGas
       else
        .ok ((if cc && hs then TxGasContractCreation else TxGas) +
          (data.filter (fun byt => byt ≠ 0)).length * TxDataNonZeroGas +
          (data.length - (data.filter (fun byt => byt ≠ 0)).length) *
            TxDataZeroGas)) :=
    IntrinsicGas_core data _ hbase
  rw [hmain]
  constructor
  · by_cases hg1 : (MaxUint64 - (if cc && hs then TxGasContractCreation else TxGas)) /
        TxDataNonZeroGas < (data.filter (fun byt => byt ≠ 0)).length
    · rw [if_pos hg1]
      exact iff_of_true rfl (Or.inl hg1)
    · rw [if_neg hg1]
      by_cases hg2 : (MaxUint64 - ((if cc && hs then TxGasContractCreation else TxGas) +
            (data.filter (fun byt => byt ≠ 0)).length * TxDataNonZeroGas)) /
          TxDataZeroGas < data.length - (data.filter (fun byt => byt ≠ 0)).length
      · rw [if_pos hg2]
        exact iff_of_true rfl (Or.inr ⟨Nat.le_of_not_lt hg1, hg2⟩)
      · rw [if_neg hg2]
        refine iff_of_false (by simp) ?_
        rintro (h | ⟨-, h2⟩)
        · exact hg1 h
        · exact hg2 h2
  · intro g hgok
    by_cases hg1 : (MaxUint64 - (if cc && hs then TxGasContractCreation else TxGas)) /
        TxDataNonZeroGas < (data.filter (fun byt => byt ≠ 0)).length
    · rw [if_pos hg1] at hgok
      simp at hgok
    · rw [if_neg hg1] at hgok
      by_cases hg2 : (MaxUint64 - ((if cc && hs then TxGasContractCreation else TxGas) +
            (data.filter (fun byt => byt ≠ 0)).length * TxDataNonZeroGas)) /
          TxDataZeroGas < data.length - (data.filter (fun byt => byt ≠ 0)).length
      · rw [if_pos hg2] at hgok
        simp at hgok
      · rw [if_neg hg2] at hgok
        have hgeq := (Except.ok.inj hgok).symm
        refine ⟨hgeq, ?_⟩
        have h68 : (data.filter (fun byt => byt ≠ 0)).length * TxDataNonZeroGas ≤
            MaxUint64 - (if cc && hs then TxGasContractCreation else TxGas) :=
          (Nat.le_div_iff_mul_le (by decide)).mp (Nat.le_of_not_lt hg1)
        have h4 : (data.length - (data.filter (fun byt => byt ≠ 0)).length) *
            TxDataZeroGas ≤
            MaxUint64 - ((if cc && hs then TxGasContractCreation else TxGas) +
              (data.filter (fun byt => byt ≠ 0)).length * TxDataNonZeroGas) :=
          (Nat.le_div_iff_mul_le (by decide)).mp (Nat.le_of_not_lt hg2)
        rw [hgeq]
        simp only [TxDataNonZeroGas, TxDataZeroGas] at h68 h4 ⊢
        omega

/-- C5 witness: the payload `[1, 0]` (one non-zero byte, one zero byte,
no creation) costs exactly `21000 + 68 + 4 = 21072`, within the 64-bit
bound. -/
theorem intrinsicGas_overflow_guard_witness :
    IntrinsicGas [1, 0] false false = .ok 21072 ∧
    21072 = (if false && false then TxGasContractCreation else TxGas) +
        (([1, 0] : List Nat).filter (fun byt => byt ≠ 0)).length * TxDataNonZeroGas +
        (([1, 0] : List Nat).length -
          (([1, 0] : List Nat).filter (fun byt => byt ≠ 0)).length) * TxDataZeroGas ∧
    (21072 : Nat) ≤ MaxUint64 := by
  have h := (intrinsicGas_overflow_guard [1, 0] false false).2 21072 (by rfl)
  exact ⟨by rfl, h.1, h.2⟩
